import Mathlib

/-!
# Verification of the seo-agent repository

Shallow embedding of the core logic of the repository (an on-page SEO
auditing tool): the rule evaluator and scorer (`src/js/engine.js`), the
keyword/phrase analyzer and tag generator (`src/js/engine.js`), the content
change monitor (`src/js/content-monitor.js`) and the crawl scheduler
(`src/js/scheduler.js`). JavaScript strings are modelled as Lean `String`
(lengths and slices count characters; the sources here only manipulate
BMP text, where the two notions agree). JavaScript numbers are modelled as
`Int`/`Nat`/`ℚ` with explicit two's-complement reductions where the source
relies on 32-bit integer semantics. Browser facilities (the WHATWG `URL`
API, `DOMParser`, `fetch`, timers) are external capabilities per the spec;
they are modelled explicitly where noted, and asynchronous operations are
modelled by splitting each `async` function at its `await` points into
synchronous phases over an explicit state record.
-/

namespace Web

/-- JS `String.prototype.startsWith`, computed over the character list
(the byte-position-based core `String.startsWith` does not reduce in the
kernel). -/
def jsStartsWith (s pre : String) : Bool := pre.toList.isPrefixOf s.toList

/-- Modelled from the spec: the browser WHATWG `URL` record, an external
host facility (spec §6 lists URL parsing among the injected browser
capabilities; no parser ships in src/). Restricted to the absolute
http(s) URLs this repository handles; percent-encoding, dot-segment
normalization and IDNA are not reproduced. -/
structure URLRec where
  scheme : String
  host : String
  port : String
  pathname : String
  search : String
  fragment : String
  deriving DecidableEq, Repr

/-- Modelled from the spec: parsing an absolute http(s) URL with
`new URL(s)`, which fails (throws, here `none`) on any other input.
The authority runs to the first `/`, `?` or `#`; the host is lowercased;
a default port (80/443) is dropped; an empty path reads as "/". -/
def parseURL (s : String) : Option URLRec :=
  let rest? : Option (String × String) :=
    if jsStartsWith s "http://" then some ("http", ⟨s.toList.drop 7⟩)
    else if jsStartsWith s "https://" then some ("https", ⟨s.toList.drop 8⟩)
    else none
  match rest? with
  | none => none
  | some (scheme, rest) =>
    let cs := rest.toList
    let auth := cs.takeWhile (fun c => !(c == '/' || c == '?' || c == '#'))
    let tail := cs.dropWhile (fun c => !(c == '/' || c == '?' || c == '#'))
    if auth.isEmpty then none
    else
      let hostCs := auth.takeWhile (fun c => !(c == ':'))
      let portCs := auth.dropWhile (fun c => !(c == ':'))
      let host : String := ⟨hostCs.map Char.toLower⟩
      let port : String :=
        match portCs with
        | [] => ""
        | _ :: p => ⟨p⟩
      let port :=
        if (scheme = "http" ∧ port = "80") ∨ (scheme = "https" ∧ port = "443") then ""
        else port
      let beforeHash := tail.takeWhile (fun c => !(c == '#'))
      let hashPart := tail.dropWhile (fun c => !(c == '#'))
      let pathCs := beforeHash.takeWhile (fun c => !(c == '?'))
      let searchCs := beforeHash.dropWhile (fun c => !(c == '?'))
      some { scheme := scheme, host := host, port := port,
             pathname := if pathCs.isEmpty then "/" else (⟨pathCs⟩ : String),
             search := ⟨searchCs⟩, fragment := ⟨hashPart⟩ }

/-- `URL.hostname`. -/
def URLRec.hostname (u : URLRec) : String := u.host

/-- `URL.origin` for http(s): scheme, host and any explicit port. -/
def URLRec.origin (u : URLRec) : String :=
  u.scheme ++ "://" ++ u.host ++ (if u.port = "" then "" else ":" ++ u.port)

/-- The base directory of a path: everything up to and including the last
`/`. -/
def dirOf (p : String) : String :=
  ⟨(p.toList.reverse.dropWhile (fun c => !(c == '/'))).reverse⟩

/-- Modelled from the spec: `new URL(href, base)` — absolute hrefs parse on
their own; otherwise the base must parse, and scheme-relative (`//`),
root-relative (`/`) and path-relative hrefs are resolved against it
(without dot-segment normalization). -/
def resolveURL (href : String) (base : String) : Option URLRec :=
  match parseURL href with
  | some u => some u
  | none =>
    match parseURL base with
    | none => none
    | some b =>
      if jsStartsWith href "//" then parseURL (b.scheme ++ ":" ++ href)
      else
        let cs := href.toList
        let beforeHash := cs.takeWhile (fun c => !(c == '#'))
        let hashPart := cs.dropWhile (fun c => !(c == '#'))
        let pathCs := beforeHash.takeWhile (fun c => !(c == '?'))
        let searchCs := beforeHash.dropWhile (fun c => !(c == '?'))
        let newPath : String :=
          if jsStartsWith href "/" then ⟨pathCs⟩
          else if pathCs.isEmpty then b.pathname
          else dirOf b.pathname ++ (⟨pathCs⟩ : String)
        some { b with pathname := newPath, search := ⟨searchCs⟩, fragment := ⟨hashPart⟩ }

end Web

namespace SEOEngine

/-- An Issue record, exactly the fields pushed by `runChecks`
(src/js/engine.js lines 364-528). `id` is the running counter `id++`,
which always equals the number of issues pushed so far. -/
structure Issue where
  id : Nat
  rule : String
  severity : String
  action : String
  element : String
  current : String
  suggested : String
  reason : String
  deriving DecidableEq, Repr

/-- `calcScore` (src/js/engine.js lines 532-540): start from 100, subtract
15 per critical, 8 per warning and 3 otherwise (the `else` branch of the
source; issues of this program always carry severity critical, warning or
info), then clamp to [0, 100] via `Math.max(0, Math.min(100, score))`. -/
def calcScore (issues : List Issue) : Int :=
  let score := issues.foldl (fun s i =>
    if i.severity = "critical" then s - 15
    else if i.severity = "warning" then s - 8
    else s - 3) (100 : Int)
  max 0 (min 100 score)

/-- The per-issue penalty applied by the `forEach` body of `calcScore`. -/
def severityPenalty (i : Issue) : Int :=
  if i.severity = "critical" then 15
  else if i.severity = "warning" then 8
  else 3

/-- Number of issues in the list carrying the given severity. -/
def countSev (issues : List Issue) (sev : String) : Nat :=
  (issues.filter (fun i => i.severity = sev)).length

theorem calcScore_foldl (l : List Issue) (a : Int) :
    l.foldl (fun s i =>
      if i.severity = "critical" then s - 15
      else if i.severity = "warning" then s - 8
      else s - 3) a = a - (l.map severityPenalty).sum := by
  induction l generalizing a with
  | nil => simp
  | cons x xs ih =>
    simp only [List.foldl_cons, List.map_cons, List.sum_cons, ih, severityPenalty]
    split <;> [omega; (split <;> omega)]

theorem penalty_sum (l : List Issue)
    (h : ∀ i ∈ l, i.severity = "critical" ∨ i.severity = "warning" ∨ i.severity = "info") :
    (l.map severityPenalty).sum =
      15 * (countSev l "critical" : Int) + 8 * (countSev l "warning" : Int)
        + 3 * (countSev l "info" : Int) := by
  induction l with
  | nil => simp [countSev]
  | cons x xs ih =>
    have hx := h x (by simp)
    have ihs := ih (fun i hi => h i (by simp [hi]))
    rcases hx with h' | h' | h' <;>
      simp [countSev, severityPenalty, List.filter_cons, h', ihs] <;>
      ring

/-- C1: for every issue list (whose severities are among the three of the
data model), `calcScore` equals
`clamp(100 − 15·criticals − 8·warnings − 3·infos, 0, 100)`; the score is
always in [0, 100], and it is invariant under any permutation of the
issue list. -/
theorem calcScore_spec (issues : List Issue)
    (h : ∀ i ∈ issues,
      i.severity = "critical" ∨ i.severity = "warning" ∨ i.severity = "info") :
    calcScore issues =
      max 0 (min 100 (100 - 15 * (countSev issues "critical" : Int)
        - 8 * (countSev issues "warning" : Int)
        - 3 * (countSev issues "info" : Int)))
    ∧ 0 ≤ calcScore issues ∧ calcScore issues ≤ 100
    ∧ ∀ issues' : List Issue, issues.Perm issues' → calcScore issues = calcScore issues' := by
  have hrep : ∀ l : List Issue,
      calcScore l = max 0 (min 100 (100 - (l.map severityPenalty).sum)) := by
    intro l
    simp only [calcScore, calcScore_foldl]
  refine ⟨?_, ?_, ?_, ?_⟩
  · rw [hrep, penalty_sum issues h]
    ring_nf
  · rw [hrep]; exact le_max_left 0 _
  · rw [hrep]
    have : min 100 (100 - (issues.map severityPenalty).sum) ≤ 100 := min_le_left _ _
    omega
  · intro issues' hperm
    rw [hrep, hrep]
    have : (issues.map severityPenalty).Perm (issues'.map severityPenalty) :=
      hperm.map severityPenalty
    rw [this.sum_eq]

/-- Witness for C1 at a concrete issue list (one critical, one warning,
one info issue): score = 100 − 15 − 8 − 3 = 74. -/
theorem calcScore_spec_witness :
    calcScore
      [⟨0, "Missing Meta Title", "critical", "auto-fix", "", "", "", ""⟩,
       ⟨1, "Meta Title Too Long", "warning", "auto-fix", "", "", "", ""⟩,
       ⟨2, "Missing Canonical URL", "info", "auto-fix", "", "", "", ""⟩] = 74 := by
  have h := calcScore_spec
    [⟨0, "Missing Meta Title", "critical", "auto-fix", "", "", "", ""⟩,
     ⟨1, "Meta Title Too Long", "warning", "auto-fix", "", "", "", ""⟩,
     ⟨2, "Missing Canonical URL", "info", "auto-fix", "", "", "", ""⟩]
    (by decide)
  rw [h.1]
  decide

/-- The fixed stop-word list of `extractKeywords` (src/js/engine.js lines
25-42), in source order. The source wraps these in a `Set`; the few
duplicate entries it contains ("could", "here", "look") are harmless for
membership, which is all the set is used for. -/
def stopWords : List String :=
  ["the","a","an","and","or","but","in","on","at","to","for","of","with",
   "by","from","as","is","was","are","were","been","be","have","has","had",
   "do","does","did","will","would","could","should","may","might","shall",
   "can","this","that","these","those","it","its","i","you","he","she","we",
   "they","me","him","her","us","them","my","your","his","our","their",
   "what","which","who","whom","where","when","how","not","no","nor","if",
   "then","than","too","very","just","about","above","after","again","all",
   "also","am","any","because","before","between","both","each","few","get",
   "here","into","more","most","other","out","over","own","same","so","some",
   "such","up","only","now","new","one","two","like","make","many","well",
   "back","even","give","good","know","look","see","take","come","could",
   "find","first","go","great","here","high","last","long","look","made",
   "much","need","never","next","old","part","place","point","right","show",
   "still","tell","thing","think","three","through","under","us","use","way",
   "work","world","year","click","read","learn","best","top","buy","free",
   "www","http","https","html","com","org","net"]

/-- JavaScript `\s` whitespace, restricted to the forms occurring in this
repository's text (ASCII whitespace and no-break space). -/
def isJsSpace (c : Char) : Bool :=
  c == ' ' || c == '\t' || c == '\n' || c == '\r' ||
  c == '\x0b' || c == '\x0c' || c.toNat == 0xa0

/-- Characters kept by the `replace(/[^a-z0-9\s'-]/g, ' ')` step of
`extractKeywords`: lowercase letters, digits, whitespace, apostrophe and
hyphen. -/
def keepKeywordChar (c : Char) : Bool :=
  ('a' ≤ c && c ≤ 'z') || ('0' ≤ c && c ≤ '9') || isJsSpace c ||
  c == Char.ofNat 39 || c == '-'

/-- One character of the `replace` step: characters outside the kept class
become a space. -/
def kwReplace (c : Char) : Char := if keepKeywordChar c then c else ' '

/-- Split a character list into the maximal nonempty runs of characters
not matched by `p` (accumulator holds the current run reversed). -/
def runSplitAux (p : Char → Bool) : List Char → List Char → List (List Char)
  | [], acc => if acc.isEmpty then [] else [acc.reverse]
  | c :: cs, acc =>
    if p c then
      if acc.isEmpty then runSplitAux p cs [] else acc.reverse :: runSplitAux p cs []
    else runSplitAux p cs (c :: acc)

/-- The maximal nonempty whitespace-delimited runs of a character list. -/
def wsTokens (cs : List Char) : List String :=
  (runSplitAux isJsSpace cs []).map (fun l => ⟨l⟩)

/-- The tokenization pipeline of `extractKeywords` (src/js/engine.js lines
44-47): lowercase, replace every character outside `[a-z0-9\s'-]` by a
space, split on whitespace, keep tokens of length > 2 not in the stop
list. JS `split(/\s+/)` can contribute empty edge tokens, but those are
removed by the `length > 2` filter, so splitting into maximal nonempty
runs yields the same filtered list. -/
def keywordTokens (text : String) : List String :=
  (wsTokens ((text.toList.map Char.toLower).map kwReplace)).filter
    (fun w => decide (2 < w.length) && !(stopWords.contains w))

/-- Distinct words in first-occurrence order: the enumeration order of the
`freq` object built in `extractKeywords` (JS objects enumerate string keys
in insertion order; integer-like keys would enumerate first, which can
only reorder entries ahead of the stable sort, i.e. permute groups of
equal score, and is not modelled). -/
def firstOccurrences (ws : List String) : List String :=
  ws.foldl (fun acc w => if w ∈ acc then acc else acc ++ [w]) []

/-- The score `cnt * (1 + word.length * 0.1)` of src/js/engine.js line 54,
with the decimal arithmetic carried out exactly in `ℚ`. -/
def kwScore (cnt : Nat) (w : String) : ℚ := cnt * (1 + (w.length : ℚ) * (1/10))

/-- The `(word, frequency)` entries of the `freq` object. -/
def kwEntries (ws : List String) : List (String × Nat) :=
  (firstOccurrences ws).map (fun w => (w, ws.count w))

/-- Score of one entry. -/
def entryScore (e : String × Nat) : ℚ := kwScore e.2 e.1

/-- Insert into a descending-sorted list, after all entries of greater or
equal key: together with `sortDescBy` this is the stable descending sort
performed by `sort((a, b) => b.score - a.score)`. -/
def insertDescBy {α : Type} (f : α → ℚ) (x : α) : List α → List α
  | [] => [x]
  | y :: ys => if f y < f x then x :: y :: ys else y :: insertDescBy f x ys

/-- Stable sort, descending by the key `f`. -/
def sortDescBy {α : Type} (f : α → ℚ) (l : List α) : List α :=
  l.foldl (fun acc x => insertDescBy f x acc) []

/-- `extractKeywords` (src/js/engine.js lines 24-58): tokenize, build the
frequency entries, sort descending by score, take the first `count`, and
return the words. -/
def extractKeywords (text : String) (count : Nat := 8) : List String :=
  let words := keywordTokens text
  ((sortDescBy entryScore (kwEntries words)).take count).map Prod.fst

theorem mem_insertDescBy {α : Type} (f : α → ℚ) (x a : α) (l : List α) :
    a ∈ insertDescBy f x l ↔ a = x ∨ a ∈ l := by
  induction l with
  | nil => simp [insertDescBy]
  | cons y ys ih =>
    simp only [insertDescBy]
    split
    · simp
    · simp [ih]
      tauto

theorem pairwise_insertDescBy {α : Type} (f : α → ℚ) (x : α) (l : List α)
    (h : l.Pairwise (fun a b => f b ≤ f a)) :
    (insertDescBy f x l).Pairwise (fun a b => f b ≤ f a) := by
  induction l with
  | nil => simp [insertDescBy]
  | cons y ys ih =>
    rcases List.pairwise_cons.mp h with ⟨hy, hys⟩
    simp only [insertDescBy]
    split
    · rename_i hlt
      refine List.pairwise_cons.mpr ⟨?_, h⟩
      intro b hb
      rcases List.mem_cons.mp hb with rfl | hb
      · exact le_of_lt hlt
      · exact le_trans (hy b hb) (le_of_lt hlt)
    · rename_i hge
      refine List.pairwise_cons.mpr ⟨?_, ih hys⟩
      intro b hb
      rcases (mem_insertDescBy f x b ys).mp hb with rfl | hb
      · exact le_of_not_lt hge
      · exact hy b hb

theorem sortDescBy_pairwise_aux {α : Type} (f : α → ℚ) (l acc : List α)
    (h : acc.Pairwise (fun a b => f b ≤ f a)) :
    (l.foldl (fun acc x => insertDescBy f x acc) acc).Pairwise (fun a b => f b ≤ f a) := by
  induction l generalizing acc with
  | nil => simpa using h
  | cons x xs ih => exact ih _ (pairwise_insertDescBy f x acc h)

theorem sortDescBy_pairwise {α : Type} (f : α → ℚ) (l : List α) :
    (sortDescBy f l).Pairwise (fun a b => f b ≤ f a) :=
  sortDescBy_pairwise_aux f l [] (by simp)

theorem mem_sortDescBy_aux {α : Type} (f : α → ℚ) (l acc : List α) (a : α) :
    a ∈ l.foldl (fun acc x => insertDescBy f x acc) acc ↔ a ∈ acc ∨ a ∈ l := by
  induction l generalizing acc with
  | nil => simp
  | cons x xs ih =>
    simp only [List.foldl_cons, ih, mem_insertDescBy, List.mem_cons]
    tauto

theorem mem_sortDescBy {α : Type} (f : α → ℚ) (l : List α) (a : α) :
    a ∈ sortDescBy f l ↔ a ∈ l := by
  simp [sortDescBy, mem_sortDescBy_aux]

theorem mem_firstOccurrences_aux (l acc : List String) (a : String) :
    a ∈ l.foldl (fun acc w => if w ∈ acc then acc else acc ++ [w]) acc →
      a ∈ acc ∨ a ∈ l := by
  induction l generalizing acc with
  | nil => simp
  | cons x xs ih =>
    intro h
    simp only [List.foldl_cons] at h
    rcases ih _ h with h' | h'
    · by_cases hx : x ∈ acc
      · simp [hx] at h'
        tauto
      · simp [hx] at h'
        rcases h' with h' | h' <;> simp [h']
    · simp [h']

theorem firstOccurrences_replicate (n : Nat) (w : String) :
    firstOccurrences (List.replicate (n + 1) w) = [w] := by
  have aux : ∀ (m : Nat) (acc : List String), w ∈ acc →
      (List.replicate m w).foldl (fun acc w => if w ∈ acc then acc else acc ++ [w]) acc
        = acc := by
    intro m
    induction m with
    | zero => intro acc _; simp
    | succ k ih =>
      intro acc hmem
      simp only [List.replicate_succ, List.foldl_cons, if_pos hmem]
      exact ih acc hmem
  simp only [firstOccurrences, List.replicate_succ, List.foldl_cons]
  have : (if w ∈ ([] : List String) then ([] : List String) else [] ++ [w]) = [w] := by simp
  rw [this, aux n [w] (by simp)]

/-- C5: `extractKeywords` returns at most `count` tokens, all drawn from
the tokenization pipeline (lowercase, strip characters outside
letters/digits/apostrophe/hyphen/whitespace, split on whitespace, drop
tokens of length ≤ 2 or in the stop list), ordered descending by
`score = frequency × (1 + 0.1 × length)`; and a body whose pipeline tokens
are one repeated meaningful word yields exactly that word. -/
theorem extractKeywords_spec (text : String) (count : Nat) :
    (extractKeywords text count).length ≤ count
    ∧ (∀ w ∈ extractKeywords text count, w ∈ keywordTokens text)
    ∧ (extractKeywords text count).Pairwise (fun a b =>
        kwScore ((keywordTokens text).count b) b
          ≤ kwScore ((keywordTokens text).count a) a)
    ∧ ∀ (n : Nat) (w : String),
        keywordTokens text = List.replicate (n + 1) w → 0 < count →
          extractKeywords text count = [w] := by
  refine ⟨?_, ?_, ?_, ?_⟩
  · simp [extractKeywords]
  · intro w hw
    simp only [extractKeywords, List.mem_map] at hw
    obtain ⟨e, he, rfl⟩ := hw
    have h1 : e ∈ sortDescBy entryScore (kwEntries (keywordTokens text)) :=
      (List.take_subset _ _) he
    have h2 : e ∈ kwEntries (keywordTokens text) := (mem_sortDescBy _ _ _).mp h1
    simp only [kwEntries, List.mem_map] at h2
    obtain ⟨w', hw', rfl⟩ := h2
    rcases mem_firstOccurrences_aux (keywordTokens text) [] w' hw' with h | h
    · simp at h
    · exact h
  · have hfact : ∀ e ∈ (sortDescBy entryScore (kwEntries (keywordTokens text))).take count,
        e.2 = (keywordTokens text).count e.1 := by
      intro e he
      have h1 := (List.take_subset _ _) he
      have h2 := (mem_sortDescBy _ _ _).mp h1
      simp only [kwEntries, List.mem_map] at h2
      obtain ⟨w', _, rfl⟩ := h2
      rfl
    have hp : ((sortDescBy entryScore (kwEntries (keywordTokens text))).take
        count).Pairwise (fun a b => entryScore b ≤ entryScore a) :=
      (sortDescBy_pairwise entryScore _).sublist (List.take_sublist _ _)
    rw [extractKeywords, List.pairwise_map]
    refine hp.imp_of_mem ?_
    intro a b ha hb hab
    have ha2 := hfact a ha
    have hb2 := hfact b hb
    simpa [entryScore, ha2, hb2] using hab
  · intro n w hw hc
    simp only [extractKeywords, hw, kwEntries, firstOccurrences_replicate,
      List.count_replicate]
    simp only [List.map_cons, List.map_nil, sortDescBy, List.foldl_cons,
      insertDescBy, List.foldl_nil]
    cases count with
    | zero => omega
    | succ k => simp

/-- Witness for C5: the body
"the banana banana banana and the" tokenizes to three copies of "banana"
("the"/"and" are stop words), so the keyword list is exactly ["banana"]. -/
theorem extractKeywords_spec_witness :
    extractKeywords "the banana banana banana and the" 8 = ["banana"] :=
  (extractKeywords_spec "the banana banana banana and the" 8).2.2.2 2 "banana"
    (by decide) (by decide)

/-- JavaScript `a || b` on strings: the empty string is falsy. -/
def jsOr (a b : String) : String := if a = "" then b else a

/-- JavaScript `String.prototype.trim`. -/
def jsTrim (s : String) : String :=
  ⟨((s.toList.dropWhile isJsSpace).reverse.dropWhile isJsSpace).reverse⟩

/-- `domain` (src/js/engine.js lines 543-546): `new URL(url).hostname`,
falling back on parse failure to stripping the first `https?://` and
taking the part before the first `/` (or "website" when that is empty). -/
def stripSchemeOnce : List Char → List Char
  | [] => []
  | c :: cs =>
    if Web.jsStartsWith (String.mk (c :: cs)) "https://" then (c :: cs).drop 8
    else if Web.jsStartsWith (String.mk (c :: cs)) "http://" then (c :: cs).drop 7
    else c :: stripSchemeOnce cs

/-- See `stripSchemeOnce`. -/
def domain (url : String) : String :=
  match Web.parseURL url with
  | some u => u.hostname
  | none =>
    let first := (stripSchemeOnce url.toList).takeWhile (fun c => !(c == '/'))
    if first.isEmpty then "website" else ⟨first⟩

/-- `capitalize` (src/js/engine.js lines 299-301). -/
def capitalize (s : String) : String :=
  match s.toList with
  | [] => ""
  | c :: cs => ⟨Char.toUpper c :: cs⟩

/-- JS `\w`: letters, digits, underscore. -/
def isWordChar (c : Char) : Bool :=
  ('a' ≤ c && c ≤ 'z') || ('A' ≤ c && c ≤ 'Z') || ('0' ≤ c && c ≤ '9') || c == '_'

/-- Helper for `titleCase`: uppercase each `\w` character not preceded by
a `\w` character (the `\b\w` matches of the source's regex). -/
def titleCaseAux : Bool → List Char → List Char
  | _, [] => []
  | prevW, c :: cs =>
    if isWordChar c then
      (if prevW then c else Char.toUpper c) :: titleCaseAux true cs
    else c :: titleCaseAux false cs

/-- `titleCase` (src/js/engine.js lines 294-296):
`str.replace(/\b\w/g, c => c.toUpperCase())`. -/
def titleCase (s : String) : String := ⟨titleCaseAux false s.toList⟩

/-- The `domain.replace(/\.[a-z]+$/, '')` steps of `generateTitle`: strip
one final dot followed by one or more lowercase letters. -/
def stripTld (s : String) : String :=
  match s.toList.reverse.span (fun c => 'a' ≤ c && c ≤ 'z') with
  | ([], _) => s
  | (_ :: _, rest) =>
    match rest with
    | '.' :: rest' => ⟨rest'.reverse⟩
    | _ => s

/-- Characters kept by the `replace(/[^a-z0-9\s]/g, ' ')` step of
`extractPhrases` (unlike `extractKeywords`, apostrophe and hyphen are not
kept). -/
def phraseChar (c : Char) : Char :=
  if ('a' ≤ c && c ≤ 'z') || ('0' ≤ c && c ≤ '9') || isJsSpace c then c else ' '

/-- The tokenization of `extractPhrases` (src/js/engine.js lines 62-63). -/
def phraseTokens (text : String) : List String :=
  (wsTokens ((text.toList.map Char.toLower).map phraseChar)).filter
    (fun w => decide (2 < w.length))

/-- The adjacent-pair strings counted by `extractPhrases`: consecutive
tokens joined by one space, kept when longer than 7 characters. -/
def bigramPairs (ws : List String) : List String :=
  (ws.zip ws.tail).filterMap (fun ab =>
    let pair := ab.1 ++ " " ++ ab.2
    if 7 < pair.length then some pair else none)

/-- `extractPhrases` (src/js/engine.js lines 61-74): count qualifying
adjacent pairs, keep those occurring more than once, sort descending by
count (stable), take `count`, return the pair strings. -/
def extractPhrases (text : String) (count : Nat := 5) : List String :=
  let pairs := bigramPairs (phraseTokens text)
  let entries := ((firstOccurrences pairs).map (fun p => (p, pairs.count p))).filter
    (fun e => decide (1 < e.2))
  ((sortDescBy (fun e => (e.2 : ℚ)) entries).take count).map Prod.fst

/-- A parsed JSON-LD value (the elements of the Snapshot's structured-data
list, produced by `JSON.parse` in `extractMeta`). -/
inductive JsonVal where
  | str (s : String)
  | num (n : Int)
  | boolean (b : Bool)
  | nullVal
  | arr (elems : List JsonVal)
  | obj (fields : List (String × JsonVal))

/-- JSON string escaping (quote, backslash and common control
characters). -/
def jsonEscape (s : String) : String :=
  s.toList.foldl (fun acc c =>
    acc ++ (if c == '"' then "\\\""
      else if c == '\\' then "\\\\"
      else if c == '\n' then "\\n"
      else if c == '\r' then "\\r"
      else if c == '\t' then "\\t"
      else String.singleton c)) ""

/-- `2·d` spaces. -/
def indentOf (d : Nat) : String := ⟨List.replicate (2 * d) ' '⟩

mutual

/-- Modelled from the spec: the host `JSON.stringify(v, null, 2)` —
two-space-indented rendering of a JSON value. -/
def stringifyVal : Nat → JsonVal → String
  | _, .str s => "\"" ++ jsonEscape s ++ "\""
  | _, .num n => toString n
  | _, .boolean b => if b then "true" else "false"
  | _, .nullVal => "null"
  | d, .arr es =>
    match es with
    | [] => "[]"
    | _ => "[\n" ++ stringifyElems (d + 1) es ++ "\n" ++ indentOf d ++ "]"
  | d, .obj fs =>
    match fs with
    | [] => "\x7b\x7d"
    | _ => "\x7b\n" ++ stringifyFields (d + 1) fs ++ "\n" ++ indentOf d ++ "\x7d"

/-- Array elements of `stringifyVal`, one per line. -/
def stringifyElems : Nat → List JsonVal → String
  | _, [] => ""
  | d, [e] => indentOf d ++ stringifyVal d e
  | d, e :: es => indentOf d ++ stringifyVal d e ++ ",\n" ++ stringifyElems d es

/-- Object fields of `stringifyVal`, one per line. -/
def stringifyFields : Nat → List (String × JsonVal) → String
  | _, [] => ""
  | d, [f] => indentOf d ++ "\"" ++ jsonEscape f.1 ++ "\": " ++ stringifyVal d f.2
  | d, f :: fs =>
    indentOf d ++ "\"" ++ jsonEscape f.1 ++ "\": " ++ stringifyVal d f.2 ++ ",\n"
      ++ stringifyFields d fs

end

/-- `JSON.stringify(v, null, 2)` at top level. -/
def stringify (v : JsonVal) : String := stringifyVal 0 v

/-- One heading of the Snapshot: tag level and trimmed text. -/
structure Heading where
  level : Nat
  text : String
  deriving DecidableEq, Repr

/-- One image of the Snapshot: `src` and `alt` attributes (empty string
when absent). -/
structure ImageTag where
  src : String
  alt : String
  deriving DecidableEq, Repr

/-- The Page Snapshot returned by `extractMeta` (src/js/engine.js lines
304-357): every field of the record it builds. The DOM queries that
populate it run through the injected HTML parser (spec §6); claims are
stated over arbitrary snapshots. -/
structure MetaData where
  title : String
  description : String
  canonical : String
  ogTitle : String
  ogDesc : String
  ogImage : String
  twCard : String
  h1s : List String
  h2s : List String
  h3s : List String
  allHeadings : List Heading
  images : List ImageTag
  wordCount : Nat
  internalLinks : List String
  links : List String
  schema : List JsonVal
  bodyText : String

/-- The strategy chain of `generateTitle` after the reuse check
(src/js/engine.js lines 84-108). It reads only `h1s`, `bodyText` and the
url — never the existing title. -/
def titleFromContent (meta : MetaData) (url : String) : String :=
  let dom := domain url
  let h1 := meta.h1s.headD ""
  let keywords := extractKeywords meta.bodyText 5
  let phrases := extractPhrases meta.bodyText 3
  if h1 ≠ "" ∧ 15 ≤ h1.length ∧ h1.length ≤ 50 then
    h1 ++ " | " ++ capitalize (stripTld dom)
  else if phrases ≠ [] then
    let phrase := titleCase (phrases.headD "")
    let kw :=
      match keywords with
      | k0 :: k1 :: _ => " — " ++ titleCase k0 ++ " & " ++ titleCase k1
      | _ => ""
    let title := phrase ++ kw
    if title.length ≤ 58 then title ++ " | " ++ capitalize (stripTld dom)
    else title.take 57 ++ "..."
  else if 3 ≤ keywords.length then
    titleCase (String.intercalate " " (keywords.take 3)) ++ " — "
      ++ capitalize (stripTld dom)
  else
    capitalize (stripTld dom) ++ " — Your Trusted Source"

/-- `generateTitle` (src/js/engine.js lines 77-109): reuse the existing
title when its length is in [30, 60], else run the strategy chain. -/
def generateTitle (meta : MetaData) (url : String) : String :=
  if meta.title ≠ "" ∧ 30 ≤ meta.title.length ∧ meta.title.length ≤ 60 then meta.title
  else titleFromContent meta url

/-- Collapse every whitespace run to a single space
(`replace(/\s+/g, ' ')`); the flag tracks being inside a run. -/
def collapseWsAux : Bool → List Char → List Char
  | _, [] => []
  | inRun, c :: cs =>
    if isJsSpace c then
      if inRun then collapseWsAux true cs else ' ' :: collapseWsAux true cs
    else c :: collapseWsAux false cs

/-- See `collapseWsAux`. -/
def collapseWs (s : String) : String := ⟨collapseWsAux false s.toList⟩

/-- Sentence separators of `generateDescription`: `.`, `!`, `?`. -/
def isSentSep (c : Char) : Bool := c == '.' || c == '!' || c == '?'

/-- The candidate sentences of `generateDescription` (src/js/engine.js
lines 120-124): collapse whitespace, split on separator runs, trim, keep
lengths strictly between 20 and 120. JS `split(/[.!?]+/)` can contribute
empty fragments, removed here by the length filter. -/
def sentencesOf (body : String) : List String :=
  ((runSplitAux isSentSep (collapseWs body).toList []).map
      (fun l => jsTrim ⟨l⟩)).filter
    (fun s => decide (20 < s.length) && decide (s.length < 120))

/-- JS `String.prototype.includes`: substring occurrence. -/
def listContainsSub (n : List Char) : List Char → Bool
  | [] => n.isEmpty
  | c :: t => n.isPrefixOf (c :: t) || listContainsSub n t

/-- See `listContainsSub`. -/
def containsSub (hay needle : String) : Bool := listContainsSub needle.toList hay.toList

/-- Number of keywords occurring in the lowercased sentence
(src/js/engine.js lines 130-132). -/
def sentenceScore (keywords : List String) (sent : String) : Nat :=
  (keywords.filter (fun kw => containsSub (String.map Char.toLower sent) kw)).length

/-- The best-sentence scan of `generateDescription` (lines 127-134): keep
the first sentence of strictly highest keyword score; score 0 never
wins. -/
def bestSentenceAux (keywords : List String) : List String → String → Nat → String
  | [], best, _ => best
  | s :: rest, best, bestScore =>
    if bestScore < sentenceScore keywords s then
      bestSentenceAux keywords rest s (sentenceScore keywords s)
    else bestSentenceAux keywords rest best bestScore

/-- See `bestSentenceAux`. -/
def bestSentence (keywords sentences : List String) : String :=
  bestSentenceAux keywords sentences "" 0

/-- `generateDescription` (src/js/engine.js lines 112-161). -/
def generateDescription (meta : MetaData) (url : String) : String :=
  if meta.description ≠ "" ∧ 70 ≤ meta.description.length ∧ meta.description.length ≤ 160 then
    meta.description
  else
    let keywords := extractKeywords meta.bodyText 6
    let phrases := extractPhrases meta.bodyText 3
    let sentences := sentencesOf meta.bodyText
    let best := bestSentence keywords sentences
    let desc :=
      if best ≠ "" then
        if best.length < 110 ∧ 2 < keywords.length then
          best ++ ". Discover " ++ String.intercalate ", " (keywords.take 3) ++ " and more."
        else best
      else if phrases ≠ [] then
        let d := "Explore " ++ String.intercalate ", " (phrases.take 2) ++ ". "
        if 2 < keywords.length then
          d ++ "Learn about " ++ String.intercalate ", " (keywords.take 4) ++ "."
        else d
      else
        let d := "Discover everything about " ++ domain url ++ "."
        if keywords ≠ [] then
          d ++ " Learn about " ++ String.intercalate ", " keywords ++ "."
        else d
    let desc := if 160 < desc.length then desc.take 157 ++ "..." else desc
    if desc.length < 70 then
      desc ++ " Visit us today for comprehensive information and resources."
    else desc

/-- A ranking tip (src/js/engine.js lines 232-291). -/
structure RankingTip where
  priority : String
  tip : String
  action : String
  deriving DecidableEq, Repr

/-- `generateRankingTips` (src/js/engine.js lines 232-291). -/
def generateRankingTips (meta : MetaData) (keywords : List String) : List RankingTip :=
  let t1 : List RankingTip :=
    if meta.wordCount < 300 then
      [⟨"high",
        "Content is thin (" ++ toString meta.wordCount
          ++ " words). Aim for 800-1500 words for better rankings.",
        "Add comprehensive content covering: "
          ++ String.intercalate ", " (keywords.take 4)⟩]
    else if meta.wordCount < 800 then
      [⟨"medium",
        "Content length is OK (" ++ toString meta.wordCount
          ++ " words) but could be stronger.",
        "Consider expanding to 1000+ words for competitive keywords."⟩]
    else []
  let t2 : List RankingTip :=
    if meta.h1s.length = 0 then
      [⟨"high",
        "Missing H1 tag — this is the most important on-page heading for SEO.",
        "Add an H1 that includes your primary keyword: \""
          ++ jsOr (keywords.headD "") "your main topic" ++ "\""⟩]
    else []
  let t3 : List RankingTip :=
    if meta.h2s.length = 0 ∧ 200 < meta.wordCount then
      [⟨"medium",
        "No H2 subheadings found. Structure content with H2s for better readability and SEO.",
        "Add H2 sections for: "
          ++ String.intercalate ", " ((keywords.take 3).map (fun k => "\"" ++ k ++ "\""))⟩]
    else []
  let t4 : List RankingTip :=
    if meta.internalLinks.length < 3 then
      [⟨"medium",
        "Only " ++ toString meta.internalLinks.length
          ++ " internal link(s). Internal linking boosts rankings.",
        "Add 3-5 internal links to related pages on your site."⟩]
    else []
  let imgNoAlt := (meta.images.filter (fun i => i.alt = "")).length
  let t5 : List RankingTip :=
    if 0 < imgNoAlt then
      [⟨"medium",
        toString imgNoAlt ++ " image(s) missing alt text. Alt text helps image SEO.",
        "Add keyword-rich alt text to all images (include \""
          ++ jsOr (keywords.headD "") "topic" ++ "\" where relevant)."⟩]
    else []
  let t6 : List RankingTip :=
    if keywords ≠ [] then
      [⟨"info",
        "Top keywords detected: " ++ String.intercalate ", " (keywords.take 5),
        "Ensure these appear in your title, H1, first paragraph, and meta description."⟩]
    else []
  t1 ++ t2 ++ t3 ++ t4 ++ t5 ++ t6

/-- The Optimized Tag Set returned by `generateOptimizedTags`
(src/js/engine.js lines 215-228). -/
structure OptimizedTags where
  title : String
  description : String
  keywords : List String
  phrases : List String
  canonical : String
  ogTitle : String
  ogDesc : String
  ogImage : String
  schema : String
  htmlSnippet : String
  tips : List RankingTip
  deriving DecidableEq, Repr

/-- `generateOptimizedTags` (src/js/engine.js lines 164-229). The source
also computes an unused local `domain`. -/
def generateOptimizedTags (meta : MetaData) (url : String) : OptimizedTags :=
  let title := generateTitle meta url
  let description := generateDescription meta url
  let keywords := extractKeywords meta.bodyText 10
  let phrases := extractPhrases meta.bodyText 5
  let canonical := jsOr meta.canonical url
  let ogTitle := jsOr meta.ogTitle title
  let ogDesc := jsOr meta.ogDesc description
  let ogImage := jsOr meta.ogImage ""
  let schema :=
    match meta.schema with
    | s :: _ => stringify s
    | [] => stringify (JsonVal.obj
        [("@context", JsonVal.str "https://schema.org"),
         ("@type", JsonVal.str "WebPage"),
         ("name", JsonVal.str title),
         ("description", JsonVal.str description),
         ("url", JsonVal.str canonical)])
  let htmlSnippet := String.intercalate "\n"
    ["<title>" ++ title ++ "</title>",
     "<meta name=\"description\" content=\"" ++ description ++ "\" />",
     "<meta name=\"keywords\" content=\"" ++ String.intercalate ", " keywords ++ "\" />",
     "<link rel=\"canonical\" href=\"" ++ canonical ++ "\" />",
     "",
     "<!-- Open Graph -->",
     "<meta property=\"og:type\" content=\"website\" />",
     "<meta property=\"og:title\" content=\"" ++ ogTitle ++ "\" />",
     "<meta property=\"og:description\" content=\"" ++ ogDesc ++ "\" />",
     "<meta property=\"og:url\" content=\"" ++ canonical ++ "\" />",
     (if ogImage ≠ "" then
        "<meta property=\"og:image\" content=\"" ++ ogImage ++ "\" />"
      else "<!-- Add og:image for social sharing -->"),
     "",
     "<!-- Twitter Card -->",
     "<meta name=\"twitter:card\" content=\"summary_large_image\" />",
     "<meta name=\"twitter:title\" content=\"" ++ ogTitle ++ "\" />",
     "<meta name=\"twitter:description\" content=\"" ++ ogDesc ++ "\" />",
     "",
     "<!-- Structured Data -->",
     "<script type=\"application/ld+json\">",
     schema,
     "</script>"]
  { title := title, description := description, keywords := keywords,
    phrases := phrases, canonical := canonical, ogTitle := ogTitle,
    ogDesc := ogDesc, ogImage := ogImage, schema := schema,
    htmlSnippet := htmlSnippet, tips := generateRankingTips meta keywords }

theorem generateTitle_update (t : String) (meta : MetaData) (url : String) :
    generateTitle { meta with title := t } url
      = if t ≠ "" ∧ 30 ≤ t.length ∧ t.length ≤ 60 then t
        else titleFromContent meta url := rfl

/-- C9: title generation is idempotent — replacing the snapshot's title by
the generated title and generating again returns the same title. The
strategy chain never reads the existing title, and the reuse branch
returns its input verbatim. -/
theorem generateTitle_idem (meta : MetaData) (url : String) :
    generateTitle { meta with title := generateTitle meta url } url
      = generateTitle meta url := by
  rw [generateTitle_update]
  by_cases hgood : generateTitle meta url ≠ "" ∧ 30 ≤ (generateTitle meta url).length ∧
      (generateTitle meta url).length ≤ 60
  · rw [if_pos hgood]
  · rw [if_neg hgood]
    by_cases horig : meta.title ≠ "" ∧ 30 ≤ meta.title.length ∧ meta.title.length ≤ 60
    · exfalso
      have heq : generateTitle meta url = meta.title := by
        rw [generateTitle, if_pos horig]
      rw [heq] at hgood
      exact hgood horig
    · rw [generateTitle, if_neg horig]

/-- C10: in every Optimized Tag Set, `canonical` falls back from the
snapshot's canonical URL to the audited URL, `ogTitle`/`ogDesc` fall back
from the snapshot's Open Graph fields to the generated title and
description, and `ogImage` defaults to the empty string when the snapshot
has none. -/
theorem generateOptimizedTags_fallbacks (meta : MetaData) (url : String) :
    (generateOptimizedTags meta url).canonical
        = (if meta.canonical = "" then url else meta.canonical)
    ∧ (generateOptimizedTags meta url).ogTitle
        = (if meta.ogTitle = "" then generateTitle meta url else meta.ogTitle)
    ∧ (generateOptimizedTags meta url).ogDesc
        = (if meta.ogDesc = "" then generateDescription meta url else meta.ogDesc)
    ∧ (generateOptimizedTags meta url).ogImage
        = (if meta.ogImage = "" then "" else meta.ogImage) := by
  refine ⟨?_, ?_, ?_, ?_⟩ <;> simp only [generateOptimizedTags, jsOr]

/-- Rules 1-2 of `runChecks` (src/js/engine.js lines 364-390): missing
title, else title too long, else title too short. Appends to the issue
list built so far; the pushed issue's `id` is the current list length
(the source's `id++` counter always equals the array length). -/
def checkTitle (meta : MetaData) (url : String) (is : List Issue) : List Issue :=
  if meta.title = "" then
    let h1 := meta.h1s.headD ""
    let suggested :=
      if h1 ≠ "" then h1 ++ " | " ++ domain url
      else domain url ++ " — Official Website"
    is ++ [⟨is.length, "Missing Meta Title", "critical", "auto-fix", "<title>", "",
      suggested,
      "No <title> tag found. Search engines use this as the primary heading in results."⟩]
  else if 60 < meta.title.length then
    is ++ [⟨is.length, "Meta Title Too Long", "warning", "auto-fix", "<title>",
      meta.title ++ " (" ++ toString meta.title.length ++ " chars)",
      meta.title.take 57 ++ "...",
      "Title exceeds 60 characters and will be truncated in search results."⟩]
  else if meta.title.length < 30 ∧ 0 < meta.title.length then
    is ++ [⟨is.length, "Meta Title Too Short", "warning", "auto-fix", "<title>",
      meta.title ++ " (" ++ toString meta.title.length ++ " chars)",
      meta.title ++ " | " ++ domain url,
      "Title is under 30 characters. Longer titles perform better in search."⟩]
  else is

/-- Rules 3-4 of `runChecks` (lines 392-421): missing description, else
too long, else too short. -/
def checkDescription (meta : MetaData) (url : String) (is : List Issue) : List Issue :=
  if meta.description = "" then
    let firstPara :=
      jsTrim ((String.intercalate "." ((meta.bodyText.split (fun c => c = '.')).take 2)).take 155)
    let suggested :=
      if firstPara ≠ "" then firstPara ++ "."
      else "Discover everything about " ++ domain url ++ ". Visit us today for more information."
    is ++ [⟨is.length, "Missing Meta Description", "critical", "auto-fix",
      "<meta name=\"description\">", "", suggested,
      "No meta description found. This is a key ranking signal and click-through driver."⟩]
  else if 160 < meta.description.length then
    is ++ [⟨is.length, "Meta Description Too Long", "warning", "auto-fix",
      "<meta description>",
      meta.description ++ " (" ++ toString meta.description.length ++ " chars)",
      meta.description.take 157 ++ "...",
      "Description exceeds 160 characters and will be truncated."⟩]
  else if meta.description.length < 70 ∧ 0 < meta.description.length then
    is ++ [⟨is.length, "Meta Description Too Short", "warning", "auto-fix",
      "<meta description>",
      meta.description ++ " (" ++ toString meta.description.length ++ " chars)",
      meta.description ++ " Learn more about our offerings and discover what makes us stand out.",
      "Description is under 70 characters. Longer descriptions improve click-through rates."⟩]
  else is

/-- Rule 5 of `runChecks` (lines 423-439): missing H1, else multiple
H1s. -/
def checkH1 (meta : MetaData) (is : List Issue) : List Issue :=
  if meta.h1s.length = 0 then
    is ++ [⟨is.length, "Missing H1 Tag", "critical", "escalate", "<h1>", "No H1 found",
      "Add a single, descriptive H1 that matches the page topic",
      "H1 is the primary heading for SEO. Cannot auto-generate — requires human judgment on content."⟩]
  else if 1 < meta.h1s.length then
    is ++ [⟨is.length, "Multiple H1 Tags", "critical", "escalate", "<h1>",
      toString meta.h1s.length ++ " H1 tags: \"" ++ String.intercalate "\", \"" meta.h1s ++ "\"",
      "Keep only one H1 tag per page",
      "Multiple H1s confuse search engines about the page topic. Human must decide which to keep."⟩]
  else is

/-- The first adjacent heading pair whose level jumps by more than one
(the `for`/`break` scan of rule 6). -/
def firstLevelJump : List Heading → Option (Heading × Heading)
  | a :: b :: rest =>
    if a.level + 1 < b.level then some (a, b) else firstLevelJump (b :: rest)
  | _ => none

/-- Rule 6 of `runChecks` (lines 441-455): report only the first broken
adjacent heading pair. -/
def checkHeadings (meta : MetaData) (is : List Issue) : List Issue :=
  if 1 < meta.allHeadings.length then
    match firstLevelJump meta.allHeadings with
    | some pc =>
      is ++ [⟨is.length, "Broken Heading Hierarchy", "warning", "escalate",
        "<h" ++ toString pc.2.level ++ ">",
        "H" ++ toString pc.1.level ++ " → H" ++ toString pc.2.level ++ " (skipped level)",
        "Use sequential heading levels (H1 → H2 → H3)",
        "Skipping heading levels hurts accessibility and SEO structure. Human must restructure content."⟩]
    | none => is
  else is

/-- Rule 7 of `runChecks` (lines 457-467): images with empty alt text. -/
def checkImages (meta : MetaData) (is : List Issue) : List Issue :=
  let noAlt := meta.images.filter (fun img => img.alt = "")
  if 0 < noAlt.length then
    is ++ [⟨is.length, "Images Missing Alt Text", "warning", "auto-fix", "<img>",
      toString noAlt.length ++ " image(s) have no alt text",
      "Add descriptive alt text to each image (e.g., \"Product photo of blue widget\")",
      "Alt text improves accessibility and image search rankings."⟩]
  else is

/-- Rule 8 of `runChecks` (lines 469-482): missing Open Graph tags. -/
def checkOpenGraph (meta : MetaData) (is : List Issue) : List Issue :=
  if meta.ogTitle = "" ∨ meta.ogDesc = "" then
    let parts :=
      (if meta.ogTitle = "" then ["og:title"] else [])
        ++ (if meta.ogDesc = "" then ["og:description"] else [])
        ++ (if meta.ogImage = "" then ["og:image"] else [])
    is ++ [⟨is.length, "Missing Open Graph Tags", "warning", "auto-fix",
      "<meta property=\"og:*\">",
      "Missing: " ++ String.intercalate ", " parts,
      "og:title=\"" ++ jsOr meta.title "Page Title" ++ "\" og:description=\""
        ++ jsOr meta.description "Page description" ++ "\"",
      "Open Graph tags control how your page appears when shared on social media."⟩]
  else is

/-- Rule 9 of `runChecks` (lines 484-493): missing canonical URL. -/
def checkCanonical (meta : MetaData) (url : String) (is : List Issue) : List Issue :=
  if meta.canonical = "" then
    is ++ [⟨is.length, "Missing Canonical URL", "info", "auto-fix",
      "<link rel=\"canonical\">", "Not set",
      "<link rel=\"canonical\" href=\"" ++ url ++ "\" />",
      "Canonical URL prevents duplicate content issues and consolidates link equity."⟩]
  else is

/-- Rule 10 of `runChecks` (lines 495-504): thin content. -/
def checkThin (meta : MetaData) (is : List Issue) : List Issue :=
  if meta.wordCount < 300 then
    is ++ [⟨is.length, "Thin Content", "warning", "escalate", "<body>",
      toString meta.wordCount ++ " words",
      "Expand content to 300+ words with relevant, high-quality information",
      "Pages with fewer than 300 words may rank poorly. Content expansion requires human writing."⟩]
  else is

/-- Rule 11 of `runChecks` (lines 506-515): missing structured data. -/
def checkSchema (meta : MetaData) (is : List Issue) : List Issue :=
  if meta.schema.length = 0 then
    is ++ [⟨is.length, "Missing Structured Data (Schema)", "info", "auto-fix",
      "<script type=\"application/ld+json\">", "No schema markup found",
      "\x7b\"@context\":\"https://schema.org\",\"@type\":\"WebPage\",\"name\":\""
        ++ jsOr meta.title "Page" ++ "\",\"description\":\""
        ++ jsOr meta.description "" ++ "\"\x7d",
      "Structured data helps search engines understand page content and enables rich snippets."⟩]
  else is

/-- Bonus rule 12 of `runChecks` (lines 517-526): missing Twitter card. -/
def checkTwitter (meta : MetaData) (is : List Issue) : List Issue :=
  if meta.twCard = "" then
    is ++ [⟨is.length, "Missing Twitter Card Tags", "info", "auto-fix",
      "<meta name=\"twitter:card\">", "Not set",
      "<meta name=\"twitter:card\" content=\"summary_large_image\">",
      "Twitter Cards enhance how your links appear on Twitter."⟩]
  else is

/-- `runChecks` (src/js/engine.js lines 360-529): the twelve rule blocks
run in catalog order, each pushing onto one issue array whose running
`id++` counter equals the array length at each push. -/
def runChecks (meta : MetaData) (url : String) : List Issue :=
  checkTwitter meta (checkSchema meta (checkThin meta (checkCanonical meta url
    (checkOpenGraph meta (checkImages meta (checkHeadings meta
      (checkH1 meta (checkDescription meta url (checkTitle meta url [])))))))))

theorem mem_checkDescription (meta : MetaData) (url : String) {is : List Issue} {i : Issue}
    (h : i ∈ is) : i ∈ checkDescription meta url is := by
  unfold checkDescription
  split_ifs <;> first | exact h | exact List.mem_append_left _ h

theorem mem_checkH1 (meta : MetaData) {is : List Issue} {i : Issue}
    (h : i ∈ is) : i ∈ checkH1 meta is := by
  unfold checkH1
  split_ifs <;> first | exact h | exact List.mem_append_left _ h

theorem mem_checkHeadings (meta : MetaData) {is : List Issue} {i : Issue}
    (h : i ∈ is) : i ∈ checkHeadings meta is := by
  unfold checkHeadings
  split
  · split
    · exact List.mem_append_left _ h
    · exact h
  · exact h

theorem mem_checkImages (meta : MetaData) {is : List Issue} {i : Issue}
    (h : i ∈ is) : i ∈ checkImages meta is := by
  simp only [checkImages]
  split_ifs <;> first | exact h | exact List.mem_append_left _ h

theorem mem_checkOpenGraph (meta : MetaData) {is : List Issue} {i : Issue}
    (h : i ∈ is) : i ∈ checkOpenGraph meta is := by
  unfold checkOpenGraph
  split_ifs <;> first | exact h | exact List.mem_append_left _ h

theorem mem_checkCanonical (meta : MetaData) (url : String) {is : List Issue} {i : Issue}
    (h : i ∈ is) : i ∈ checkCanonical meta url is := by
  unfold checkCanonical
  split_ifs <;> first | exact h | exact List.mem_append_left _ h

theorem mem_checkThin (meta : MetaData) {is : List Issue} {i : Issue}
    (h : i ∈ is) : i ∈ checkThin meta is := by
  unfold checkThin
  split_ifs <;> first | exact h | exact List.mem_append_left _ h

theorem mem_checkSchema (meta : MetaData) {is : List Issue} {i : Issue}
    (h : i ∈ is) : i ∈ checkSchema meta is := by
  unfold checkSchema
  split_ifs <;> first | exact h | exact List.mem_append_left _ h

theorem mem_checkTwitter (meta : MetaData) {is : List Issue} {i : Issue}
    (h : i ∈ is) : i ∈ checkTwitter meta is := by
  unfold checkTwitter
  split_ifs <;> first | exact h | exact List.mem_append_left _ h

theorem mem_runChecks_of_title (meta : MetaData) (url : String) {i : Issue}
    (h : i ∈ checkTitle meta url []) : i ∈ runChecks meta url := by
  unfold runChecks
  exact mem_checkTwitter _ (mem_checkSchema _ (mem_checkThin _ (mem_checkCanonical _ _
    (mem_checkOpenGraph _ (mem_checkImages _ (mem_checkHeadings _
      (mem_checkH1 _ (mem_checkDescription _ _ h))))))))

theorem rule_of_checkDescription (meta : MetaData) (url : String) (is : List Issue) (i : Issue)
    (h : i ∈ checkDescription meta url is) :
    i ∈ is ∨ i.rule = "Missing Meta Description" ∨ i.rule = "Meta Description Too Long"
      ∨ i.rule = "Meta Description Too Short" := by
  unfold checkDescription at h
  split_ifs at h <;>
    first
      | exact Or.inl h
      | (simp only [List.mem_append, List.mem_singleton] at h
         rcases h with h | rfl
         · exact Or.inl h
         · simp)

theorem rule_of_checkH1 (meta : MetaData) (is : List Issue) (i : Issue)
    (h : i ∈ checkH1 meta is) :
    i ∈ is ∨ i.rule = "Missing H1 Tag" ∨ i.rule = "Multiple H1 Tags" := by
  unfold checkH1 at h
  split_ifs at h <;>
    first
      | exact Or.inl h
      | (simp only [List.mem_append, List.mem_singleton] at h
         rcases h with h | rfl
         · exact Or.inl h
         · simp)

theorem rule_of_checkHeadings (meta : MetaData) (is : List Issue) (i : Issue)
    (h : i ∈ checkHeadings meta is) :
    i ∈ is ∨ i.rule = "Broken Heading Hierarchy" := by
  unfold checkHeadings at h
  split at h
  · split at h
    · simp only [List.mem_append, List.mem_singleton] at h
      rcases h with h | rfl
      · exact Or.inl h
      · simp
    · exact Or.inl h
  · exact Or.inl h

theorem rule_of_checkImages (meta : MetaData) (is : List Issue) (i : Issue)
    (h : i ∈ checkImages meta is) :
    i ∈ is ∨ i.rule = "Images Missing Alt Text" := by
  simp only [checkImages] at h
  split_ifs at h <;>
    first
      | exact Or.inl h
      | (simp only [List.mem_append, List.mem_singleton] at h
         rcases h with h | rfl
         · exact Or.inl h
         · simp)

theorem rule_of_checkOpenGraph (meta : MetaData) (is : List Issue) (i : Issue)
    (h : i ∈ checkOpenGraph meta is) :
    i ∈ is ∨ i.rule = "Missing Open Graph Tags" := by
  unfold checkOpenGraph at h
  split_ifs at h <;>
    first
      | exact Or.inl h
      | (simp only [List.mem_append, List.mem_singleton] at h
         rcases h with h | rfl
         · exact Or.inl h
         · simp)

theorem rule_of_checkCanonical (meta : MetaData) (url : String) (is : List Issue) (i : Issue)
    (h : i ∈ checkCanonical meta url is) :
    i ∈ is ∨ i.rule = "Missing Canonical URL" := by
  unfold checkCanonical at h
  split_ifs at h <;>
    first
      | exact Or.inl h
      | (simp only [List.mem_append, List.mem_singleton] at h
         rcases h with h | rfl
         · exact Or.inl h
         · simp)

theorem rule_of_checkThin (meta : MetaData) (is : List Issue) (i : Issue)
    (h : i ∈ checkThin meta is) :
    i ∈ is ∨ i.rule = "Thin Content" := by
  unfold checkThin at h
  split_ifs at h <;>
    first
      | exact Or.inl h
      | (simp only [List.mem_append, List.mem_singleton] at h
         rcases h with h | rfl
         · exact Or.inl h
         · simp)

theorem rule_of_checkSchema (meta : MetaData) (is : List Issue) (i : Issue)
    (h : i ∈ checkSchema meta is) :
    i ∈ is ∨ i.rule = "Missing Structured Data (Schema)" := by
  unfold checkSchema at h
  split_ifs at h <;>
    first
      | exact Or.inl h
      | (simp only [List.mem_append, List.mem_singleton] at h
         rcases h with h | rfl
         · exact Or.inl h
         · simp)

theorem rule_of_checkTwitter (meta : MetaData) (is : List Issue) (i : Issue)
    (h : i ∈ checkTwitter meta is) :
    i ∈ is ∨ i.rule = "Missing Twitter Card Tags" := by
  unfold checkTwitter at h
  split_ifs at h <;>
    first
      | exact Or.inl h
      | (simp only [List.mem_append, List.mem_singleton] at h
         rcases h with h | rfl
         · exact Or.inl h
         · simp)

theorem rule_of_runChecks (meta : MetaData) (url : String) (i : Issue)
    (h : i ∈ runChecks meta url) :
    i ∈ checkTitle meta url [] ∨
      (i.rule = "Missing Meta Description" ∨ i.rule = "Meta Description Too Long"
        ∨ i.rule = "Meta Description Too Short" ∨ i.rule = "Missing H1 Tag"
        ∨ i.rule = "Multiple H1 Tags" ∨ i.rule = "Broken Heading Hierarchy"
        ∨ i.rule = "Images Missing Alt Text" ∨ i.rule = "Missing Open Graph Tags"
        ∨ i.rule = "Missing Canonical URL" ∨ i.rule = "Thin Content"
        ∨ i.rule = "Missing Structured Data (Schema)"
        ∨ i.rule = "Missing Twitter Card Tags") := by
  unfold runChecks at h
  rcases rule_of_checkTwitter _ _ _ h with h | h
  case inr => tauto
  rcases rule_of_checkSchema _ _ _ h with h | h
  case inr => tauto
  rcases rule_of_checkThin _ _ _ h with h | h
  case inr => tauto
  rcases rule_of_checkCanonical _ _ _ _ h with h | h
  case inr => tauto
  rcases rule_of_checkOpenGraph _ _ _ h with h | h
  case inr => tauto
  rcases rule_of_checkImages _ _ _ h with h | h
  case inr => tauto
  rcases rule_of_checkHeadings _ _ _ h with h | h
  case inr => tauto
  rcases rule_of_checkH1 _ _ _ h with h | h
  case inr => tauto
  rcases rule_of_checkDescription _ _ _ _ h with h | h
  case inr => tauto
  exact Or.inl h

theorem checkTitle_of_inrange (meta : MetaData) (url : String)
    (h2 : 30 ≤ meta.title.length) (h3 : meta.title.length ≤ 60) :
    checkTitle meta url [] = [] := by
  have h1 : ¬(meta.title = "") := by
    intro e
    rw [e] at h2
    simp at h2
  unfold checkTitle
  rw [if_neg h1, if_neg (by omega), if_neg (by omega)]

/-- C4: the title rules of the evaluator — lengths 30 and 60 pass with no
length issue; 61 yields "Meta Title Too Long" and 29 yields
"Meta Title Too Short", both warnings with action auto-fix; an empty title
yields only "Missing Meta Title" (critical) and never a length issue. -/
theorem runChecks_title_rules (meta : MetaData) (url : String) :
    ((meta.title.length = 30 ∨ meta.title.length = 60) →
      ∀ i ∈ runChecks meta url,
        i.rule ≠ "Meta Title Too Long" ∧ i.rule ≠ "Meta Title Too Short")
    ∧ (meta.title.length = 61 →
        ∃ i ∈ runChecks meta url,
          i.rule = "Meta Title Too Long" ∧ i.severity = "warning" ∧ i.action = "auto-fix")
    ∧ (meta.title.length = 29 →
        ∃ i ∈ runChecks meta url,
          i.rule = "Meta Title Too Short" ∧ i.severity = "warning" ∧ i.action = "auto-fix")
    ∧ (meta.title = "" →
        (∃ i ∈ runChecks meta url,
          i.rule = "Missing Meta Title" ∧ i.severity = "critical")
        ∧ ∀ i ∈ runChecks meta url,
            i.rule ≠ "Meta Title Too Long" ∧ i.rule ≠ "Meta Title Too Short") := by
  refine ⟨?_, ?_, ?_, ?_⟩
  · intro hlen i hi
    have hempty : checkTitle meta url [] = [] := by
      rcases hlen with h | h <;> exact checkTitle_of_inrange meta url (by omega) (by omega)
    rcases rule_of_runChecks meta url i hi with h | h
    · rw [hempty] at h
      simp at h
    · constructor <;> (intro e; rw [e] at h; simp at h)
  · intro hlen
    have hne : ¬(meta.title = "") := by
      intro e
      rw [e] at hlen
      simp at hlen
    have hT : checkTitle meta url [] =
        [⟨0, "Meta Title Too Long", "warning", "auto-fix", "<title>",
          meta.title ++ " (" ++ toString meta.title.length ++ " chars)",
          meta.title.take 57 ++ "...",
          "Title exceeds 60 characters and will be truncated in search results."⟩] := by
      unfold checkTitle
      rw [if_neg hne, if_pos (by omega)]
      rfl
    refine ⟨_, mem_runChecks_of_title meta url (by rw [hT]; exact List.mem_singleton_self _),
      rfl, rfl, rfl⟩
  · intro hlen
    have hne : ¬(meta.title = "") := by
      intro e
      rw [e] at hlen
      simp at hlen
    have hT : checkTitle meta url [] =
        [⟨0, "Meta Title Too Short", "warning", "auto-fix", "<title>",
          meta.title ++ " (" ++ toString meta.title.length ++ " chars)",
          meta.title ++ " | " ++ domain url,
          "Title is under 30 characters. Longer titles perform better in search."⟩] := by
      unfold checkTitle
      rw [if_neg hne, if_neg (by omega), if_pos (by omega)]
      rfl
    refine ⟨_, mem_runChecks_of_title meta url (by rw [hT]; exact List.mem_singleton_self _),
      rfl, rfl, rfl⟩
  · intro hempty
    have hT : checkTitle meta url [] =
        [⟨0, "Missing Meta Title", "critical", "auto-fix", "<title>", "",
          (if meta.h1s.headD "" ≠ "" then meta.h1s.headD "" ++ " | " ++ domain url
           else domain url ++ " — Official Website"),
          "No <title> tag found. Search engines use this as the primary heading in results."⟩] := by
      unfold checkTitle
      rw [if_pos hempty]
      rfl
    refine ⟨⟨_, mem_runChecks_of_title meta url (by rw [hT]; exact List.mem_singleton_self _),
      rfl, rfl⟩, ?_⟩
    intro i hi
    rcases rule_of_runChecks meta url i hi with h | h
    · rw [hT] at h
      simp only [List.mem_singleton] at h
      subst h
      simp
    · constructor <;> (intro e; rw [e] at h; simp at h)

/-- Witness for C4: a snapshot whose title is 29 characters long yields a
"Meta Title Too Short" warning with action auto-fix. -/
theorem runChecks_title_rules_witness :
    ∃ i ∈ runChecks
      ⟨"aaaaaaaaaaaaaaaaaaaaaaaaaaaaa", "", "", "", "", "", "", [], [], [], [], [],
        0, [], [], [], ""⟩ "https://example.com/",
      i.rule = "Meta Title Too Short" ∧ i.severity = "warning" ∧ i.action = "auto-fix" :=
  (runChecks_title_rules
    ⟨"aaaaaaaaaaaaaaaaaaaaaaaaaaaaa", "", "", "", "", "", "", [], [], [], [], [],
      0, [], [], [], ""⟩ "https://example.com/").2.2.1 (by decide)

end SEOEngine

namespace ContentMonitor

/-- Two's-complement 32-bit reinterpretation: the value JavaScript's
`ToInt32` produces for `<<` and `&`. -/
def toInt32 (n : Int) : Int :=
  if n % 4294967296 < 2147483648 then n % 4294967296
  else n % 4294967296 - 4294967296

/-- UTF-16 code units of one character (JS `charCodeAt` values), splitting
astral code points into surrogate pairs. -/
def charCodeUnits (c : Char) : List Nat :=
  if c.toNat < 65536 then [c.toNat]
  else [55296 + (c.toNat - 65536) / 1024, 56320 + (c.toNat - 65536) % 1024]

/-- UTF-16 code units of a string in order. -/
def utf16Codes (s : String) : List Nat :=
  s.toList.foldr (fun c acc => charCodeUnits c ++ acc) []

/-- One iteration of the `hashContent` loop as JavaScript executes it
(src/js/content-monitor.js line 100):
`hash = ((hash << 5) + hash + str.charCodeAt(i)) & 0xFFFFFFFF`, where `<<`
and `&` work on signed 32-bit integers (`ToInt32`). -/
def jsHashStep (h : Int) (code : Nat) : Int :=
  toInt32 (toInt32 (h * 32) + h + code)

/-- The numeric value of `hashContent` before rendering (seed 5381). -/
def jsHashVal (codes : List Nat) : Int := codes.foldl jsHashStep 5381

/-- Lowercase hexadecimal digits of a natural number
(JS `toString(16)` on a nonnegative value). -/
def natToHex (n : Nat) : String := ⟨Nat.toDigits 16 n⟩

/-- JS `Number.prototype.toString(16)` on a 32-bit integer: a negative
value renders as a minus sign followed by the hex digits of its
magnitude. -/
def intToHex (n : Int) : String :=
  if n < 0 then "-" ++ natToHex n.natAbs else natToHex n.natAbs

/-- `hashContent` (src/js/content-monitor.js lines 97-103). -/
def hashContent (s : String) : String := intToHex (jsHashVal (utf16Codes s))

/-- The hash recurrence as claim C8 words it: each step reduced into
[0, 2^32), final value rendered as plain hex. -/
def specHashStep (h code : Nat) : Nat := (h * 32 + h + code) % 4294967296

/-- Folded spec-side hash value. -/
def specHashVal (codes : List Nat) : Nat := codes.foldl specHashStep 5381

/-- Claim-side rendering of the hash. -/
def hashContentSpec (s : String) : String := natToHex (specHashVal (utf16Codes s))

theorem toInt32_emod (a : Int) :
    toInt32 a % 4294967296 = a % 4294967296 := by
  unfold toInt32
  split_ifs <;> omega

theorem toInt32_congr {a b : Int} (h : a % 4294967296 = b % 4294967296) :
    toInt32 a = toInt32 b := by
  unfold toInt32
  rw [h]

theorem jsHashStep_congr (u c : Nat) :
    jsHashStep (toInt32 u) c = toInt32 (specHashStep u c) := by
  unfold jsHashStep specHashStep
  apply toInt32_congr
  have hx : toInt32 (u : Int) ≡ (u : Int) [ZMOD (4294967296 : Int)] := toInt32_emod _
  have h32 : toInt32 ((toInt32 (u : Int)) * 32) ≡ (toInt32 (u : Int)) * 32
      [ZMOD (4294967296 : Int)] := toInt32_emod _
  have step1 : toInt32 ((toInt32 (u : Int)) * 32) + toInt32 (u : Int) + (c : Int)
      ≡ (u : Int) * 32 + (u : Int) + (c : Int) [ZMOD (4294967296 : Int)] :=
    ((h32.trans (hx.mul_right 32)).add hx).add_right (c : Int)
  have step2 : ((u * 32 + u + c : Nat) : Int)
      ≡ (((u * 32 + u + c) % 4294967296 : Nat) : Int) [ZMOD (4294967296 : Int)] := by
    have h : ((u * 32 + u + c : Nat) : Int) % 4294967296
        = (((u * 32 + u + c) % 4294967296 : Nat) : Int) % 4294967296 := by
      push_cast
      rw [Int.emod_emod_of_dvd _ dvd_rfl]
    exact h
  have step3 : (u : Int) * 32 + (u : Int) + (c : Int) = ((u * 32 + u + c : Nat) : Int) := by
    push_cast
    ring
  exact step1.trans (by rw [← step3] at step2; exact step2)

theorem jsHashVal_congr_aux (codes : List Nat) :
    ∀ u : Nat, codes.foldl jsHashStep (toInt32 u)
      = toInt32 (codes.foldl specHashStep u : Nat) := by
  induction codes with
  | nil =>
    intro u
    rw [List.foldl_nil, List.foldl_nil]
  | cons c cs ih =>
    intro u
    simp only [List.foldl_cons, jsHashStep_congr]
    exact ih (specHashStep u c)

theorem specHashVal_lt (codes : List Nat) : specHashVal codes < 4294967296 ∨ codes = [] := by
  cases codes with
  | nil => exact Or.inr rfl
  | cons c cs =>
    left
    have aux : ∀ (l : List Nat) (u : Nat), u < 4294967296 →
        l.foldl specHashStep u < 4294967296 := by
      intro l
      induction l with
      | nil => intro u hu; exact hu
      | cons x xs ih =>
        intro u hu
        exact ih _ (Nat.mod_lt _ (by omega))
    unfold specHashVal
    simp only [List.foldl_cons]
    exact aux cs _ (Nat.mod_lt _ (by omega))

theorem jsHashVal_eq (codes : List Nat) :
    jsHashVal codes = toInt32 (specHashVal codes : Nat) := by
  have h5381 : (5381 : Int) = toInt32 ((5381 : Nat) : Int) := by decide
  unfold jsHashVal specHashVal
  rw [h5381]
  exact jsHashVal_congr_aux codes 5381

set_option maxRecDepth 8000 in
/-- C8 counterexample: on the input "seoaaaa" the code returns
"-742e9630" — the accumulator is a signed 32-bit value and JS
`toString(16)` renders its sign — while the claimed mod-2^32 value
renders as "8bd169d0". -/
theorem hashContent_counterexample :
    hashContent "seoaaaa" = "-742e9630"
    ∧ hashContentSpec "seoaaaa" = "8bd169d0"
    ∧ hashContent "seoaaaa" ≠ hashContentSpec "seoaaaa" := by
  refine ⟨by decide, by decide, by decide⟩

/-- C8 amended: the accumulator follows the djb2 recurrence
`hash = ((hash<<5) + hash + code) mod 2^32` exactly, but is carried as a
signed 32-bit integer; the rendered string is the hex of the mod-2^32
value when it is below 2^31, and otherwise a minus sign followed by the
hex of its two's-complement magnitude `2^32 − value`. -/
theorem hashContent_amended (s : String) :
    hashContent s =
      (if specHashVal (utf16Codes s) < 2147483648 then
        natToHex (specHashVal (utf16Codes s))
      else "-" ++ natToHex (4294967296 - specHashVal (utf16Codes s))) := by
  unfold hashContent
  rw [jsHashVal_eq]
  rcases specHashVal_lt (utf16Codes s) with hlt | hnil
  · set u := specHashVal (utf16Codes s) with hu
    have hmod : (u : Int) % 4294967296 = (u : Int) := by omega
    have hval : toInt32 (u : Int) =
        if u < 2147483648 then ((u : Int)) else ((u : Int) - 4294967296) := by
      unfold toInt32
      rw [hmod]
      by_cases hcase : u < 2147483648
      · rw [if_pos (by omega : ((u : Int) < 2147483648)), if_pos hcase]
      · rw [if_neg (by omega : ¬((u : Int) < 2147483648)), if_neg hcase]
    rw [hval]
    by_cases hcase : u < 2147483648
    · rw [if_pos hcase, if_pos hcase]
      unfold intToHex
      rw [if_neg (by omega : ¬((u : Int) < 0))]
      have habs : ((u : Int)).natAbs = u := by omega
      rw [habs]
    · rw [if_neg hcase, if_neg hcase]
      unfold intToHex
      rw [if_pos (by omega : ((u : Int) - 4294967296 < 0))]
      have habs : ((u : Int) - 4294967296).natAbs = 4294967296 - u := by omega
      rw [habs]
  · rw [hnil]
    decide

/-- One event fired through `notify` (src/js/content-monitor.js lines
171-178); a `change` notification reaches both the change callback and the
status callback. The change payload also carries the diff list (computed
by `detectChanges` through the injected HTML parser), the html and a
timestamp; none of them affects monitor state or control flow and they are
not modelled. -/
inductive MEvent where
  | statusStarted (url : String) (intervalMs : Nat)
  | statusStopped (checks changes : Nat)
  | statusChecking (check : Nat)
  | statusBaseline (hash : String)
  | statusNoChange (check : Nat)
  | statusError (message : String) (check : Nat)
  | changeEvent (url prevHash newHash : String) (checkNumber : Nat)
  deriving DecidableEq, Repr

/-- The mutable fields of the `ContentMonitor` object (lines 6-16);
`timerArmed` stands for `interval !== null`. -/
structure MonitorState where
  watching : Bool
  url : Option String
  lastHash : Option String
  lastHtml : Option String
  checkCount : Nat
  changesDetected : Nat
  intervalMs : Nat
  timerArmed : Bool
  deriving DecidableEq, Repr

/-- The initial `ContentMonitor` object. -/
def initialState : MonitorState :=
  { watching := false, url := none, lastHash := none, lastHtml := none,
    checkCount := 0, changesDetected := 0, intervalMs := 30000, timerArmed := false }

/-- `stop()` (src/js/content-monitor.js lines 40-47): clear the timer,
leave Watching, fire the stopped status. -/
def stop (s : MonitorState) : MonitorState × List MEvent :=
  ({ s with timerArmed := false, watching := false },
   [.statusStopped s.checkCount s.changesDetected])

/-- The synchronous prefix of `check()` before its `await fetch` (lines
50-58): the `!this.watching || !this.url` guard (null and the empty string
are falsy), then the counter bump and checking status; `true` means a
fetch went in flight. -/
def checkBegin (s : MonitorState) : MonitorState × List MEvent × Bool :=
  if s.watching = false ∨ s.url = none ∨ s.url = some "" then (s, [], false)
  else ({ s with checkCount := s.checkCount + 1 },
    [.statusChecking (s.checkCount + 1)], true)

/-- The continuation of `check()` once the fetch settles (lines 59-93).
`none` is a failed fetch (non-ok response or thrown error, i.e. the catch
block, whose message text is abstracted); `some html` a fetched body. The
`watching` guard is NOT re-evaluated after the await — the source runs
this continuation unconditionally. -/
def checkResume (s : MonitorState) (result : Option String) : MonitorState × List MEvent :=
  match result with
  | none => (s, [.statusError "Fetch failed" s.checkCount])
  | some html =>
    let hash := hashContent html
    match s.lastHash with
    | none =>
      ({ s with lastHash := some hash, lastHtml := some html }, [.statusBaseline hash])
    | some prev =>
      if hash ≠ prev then
        ({ s with changesDetected := s.changesDetected + 1,
                  lastHash := some hash, lastHtml := some html },
         [.changeEvent (s.url.getD "") prev hash s.checkCount])
      else (s, [.statusNoChange s.checkCount])

/-- `start(url, options)` (lines 19-37): stop any prior run, install the
url and options, reset the two counters — but not `lastHash`/`lastHtml` —
fire the started status, and begin the initial check. The periodic timer
is armed only in the `.then` continuation (`armTimer`). -/
def start (s : MonitorState) (url : String) (intervalMs : Nat) :
    MonitorState × List MEvent :=
  let prior := if s.watching then stop s else (s, [])
  ({ prior.1 with
      url := some url
      watching := true
      checkCount := 0
      changesDetected := 0
      intervalMs := intervalMs },
   prior.2 ++ [.statusStarted url intervalMs])

/-- The `.then` continuation of `start` (lines 33-36) arming the interval
timer once the initial check resolves. -/
def armTimer (s : MonitorState) : MonitorState := { s with timerArmed := true }

/-- C2 scenario, first half: a fresh monitor is started and the initial
check's fetch goes in flight (`checkBegin` reports the issued fetch in the
`Bool` component). -/
def inFlightAtStop : MonitorState × List MEvent × Bool :=
  checkBegin (start initialState "https://a.example/" 30000).1

/-- C2 scenario, second half: `stop()` runs while that fetch is still in
flight. -/
def stoppedMidFetch : MonitorState := (stop inFlightAtStop.1).1

set_option maxRecDepth 8000 in
/-- C2 fails on the code: with a fetch in flight at stop time, the monitor
is Stopped with its baseline still unset, yet when the fetch arrives the
continuation mutates the stopped monitor's baseline and fires a status
event — `check()` re-reads `watching` only before its `await`, never
after. -/
theorem inflight_result_after_stop_mutates :
    inFlightAtStop.2.2 = true
    ∧ stoppedMidFetch.watching = false
    ∧ stoppedMidFetch.lastHash = none
    ∧ (checkResume stoppedMidFetch (some "hello")).1.lastHash
        = some (hashContent "hello")
    ∧ (checkResume stoppedMidFetch (some "hello")).2
        = [MEvent.statusBaseline (hashContent "hello")] := by
  refine ⟨rfl, rfl, rfl, rfl, rfl⟩

/-- C3 scenario: a full first run (start, baseline established from
"hello", timer armed), then `stop()`, then a second `start()` on the same
URL. -/
def restartedMonitor : MonitorState :=
  (start (stop (armTimer (checkResume (checkBegin (start initialState
    "https://a.example/" 30000).1).1 (some "hello")).1)).1
    "https://a.example/" 30000).1

set_option maxRecDepth 8000 in
/-- C3 fails on the code for restarts: `start()` leaves
`lastHash`/`lastHtml` in place, so the restarted run still carries the old
baseline, and its first fetch ("world") does not take the baseline branch:
it fires a change event on the very first check and counts a detected
change. -/
theorem restart_fires_change_on_first_check :
    restartedMonitor.lastHash = some (hashContent "hello")
    ∧ (checkResume (checkBegin restartedMonitor).1 (some "world")).2
        = [MEvent.changeEvent "https://a.example/" (hashContent "hello")
            (hashContent "world") 1]
    ∧ (checkResume (checkBegin restartedMonitor).1 (some "world")).1.changesDetected
        = 1 := by
  refine ⟨rfl, ?_, ?_⟩ <;> decide

end ContentMonitor

namespace Scheduler

/-- One step of the anchor scan of `discoverLinks` (src/js/scheduler.js
lines 159-173): skip falsy/`#`/`mailto:`/`tel:`/`javascript:` hrefs,
resolve against the root (skip on parse failure), keep same-hostname
targets cleaned to `origin + pathname`, excluding the root URL string and
anything already seen. -/
def discoverStep (baseUrl : String) (base : Web.URLRec) (seen : List String)
    (href : String) : List String :=
  if href = "" ∨ Web.jsStartsWith href "#" ∨ Web.jsStartsWith href "mailto:"
      ∨ Web.jsStartsWith href "tel:" ∨ Web.jsStartsWith href "javascript:" then seen
  else
    match Web.resolveURL href baseUrl with
    | none => seen
    | some full =>
      if full.hostname = base.hostname then
        if full.origin ++ full.pathname ≠ baseUrl
            ∧ full.origin ++ full.pathname ∉ seen then
          seen ++ [full.origin ++ full.pathname]
        else seen
      else seen

/-- `discoverLinks` (src/js/scheduler.js lines 152-176). The DOM query
`querySelectorAll('a[href]')` runs through the injected HTML parser (spec
§6); its result — the anchors' href attribute values in document order —
is the `hrefs` argument. The JS `Set` iterates in insertion order,
modelled by an append-only list; an unparsable root returns `[]`. -/
def discoverLinks (hrefs : List String) (baseUrl : String) : List String :=
  match Web.parseURL baseUrl with
  | none => []
  | some base => hrefs.foldl (discoverStep baseUrl base) []

/-- The keep-and-clean predicate of link discovery as the spec words it
(claim C7): a kept href is non-empty, has no `#`/`mailto:`/`tel:`/
`javascript:` lead, resolves against the root to the root's hostname, and
its fragment/query-stripped form `origin ++ pathname` differs from the
root URL. -/
def keepClean (baseUrl : String) (base : Web.URLRec) (href : String) : Option String :=
  if href = "" ∨ Web.jsStartsWith href "#" ∨ Web.jsStartsWith href "mailto:"
      ∨ Web.jsStartsWith href "tel:" ∨ Web.jsStartsWith href "javascript:" then none
  else
    match Web.resolveURL href baseUrl with
    | none => none
    | some full =>
      if full.hostname = base.hostname then
        if full.origin ++ full.pathname ≠ baseUrl then
          some (full.origin ++ full.pathname)
        else none
      else none

/-- Link discovery as the spec words it: the kept cleaned links, in first
occurrence order, without duplicates. -/
def discoverLinksSpec (hrefs : List String) (baseUrl : String) : List String :=
  match Web.parseURL baseUrl with
  | none => []
  | some base => SEOEngine.firstOccurrences (hrefs.filterMap (keepClean baseUrl base))

theorem discoverStep_eq (baseUrl : String) (base : Web.URLRec) (seen : List String)
    (href : String) :
    discoverStep baseUrl base seen href =
      match keepClean baseUrl base href with
      | none => seen
      | some c => if c ∈ seen then seen else seen ++ [c] := by
  by_cases hg : href = "" ∨ Web.jsStartsWith href "#" ∨ Web.jsStartsWith href "mailto:"
      ∨ Web.jsStartsWith href "tel:" ∨ Web.jsStartsWith href "javascript:"
  · simp [discoverStep, keepClean, hg]
  · cases hr : Web.resolveURL href baseUrl with
    | none => simp [discoverStep, keepClean, hg, hr]
    | some full =>
      by_cases hh : full.hostname = base.hostname
      · by_cases hc : full.origin ++ full.pathname ≠ baseUrl
        · by_cases hm : full.origin ++ full.pathname ∈ seen <;>
            simp [discoverStep, keepClean, hg, hr, hh, hc, hm]
        · simp [discoverStep, keepClean, hg, hr, hh, hc]
      · simp [discoverStep, keepClean, hg, hr, hh]

theorem discover_foldl_eq (baseUrl : String) (base : Web.URLRec) (hrefs : List String) :
    ∀ acc : List String,
      hrefs.foldl (discoverStep baseUrl base) acc
        = (hrefs.filterMap (keepClean baseUrl base)).foldl
            (fun acc x => if x ∈ acc then acc else acc ++ [x]) acc := by
  induction hrefs with
  | nil => intro acc; rfl
  | cons href rest ih =>
    intro acc
    rw [List.foldl_cons, discoverStep_eq]
    cases hk : keepClean baseUrl base href with
    | none =>
      simp only [List.filterMap_cons, hk]
      exact ih acc
    | some c =>
      simp only [List.filterMap_cons, hk, List.foldl_cons]
      exact ih _

theorem nodup_foldl_dedup (l : List String) :
    ∀ acc : List String, acc.Nodup →
      (l.foldl (fun acc x => if x ∈ acc then acc else acc ++ [x]) acc).Nodup := by
  induction l with
  | nil => intro acc h; exact h
  | cons x xs ih =>
    intro acc h
    rw [List.foldl_cons]
    by_cases hm : x ∈ acc
    · rw [if_pos hm]
      exact ih acc h
    · rw [if_neg hm]
      refine ih _ ?_
      simp [List.nodup_append, h, hm]

/-- C7: `discoverLinks` returns exactly the kept links — anchors whose
hrefs are not `#`/`mailto:`/`tel:`/`javascript:`-led, resolve relative to
the root to the root's hostname, cleaned by stripping fragment and query
(`origin ++ pathname`), excluding the root URL itself — deduplicated in
first-occurrence order, hence duplicate-free. -/
theorem discoverLinks_spec (hrefs : List String) (baseUrl : String) :
    discoverLinks hrefs baseUrl = discoverLinksSpec hrefs baseUrl
    ∧ (discoverLinks hrefs baseUrl).Nodup := by
  cases hp : Web.parseURL baseUrl with
  | none => simp [discoverLinks, discoverLinksSpec, hp]
  | some base =>
    simp only [discoverLinks, discoverLinksSpec, hp, SEOEngine.firstOccurrences]
    refine ⟨discover_foldl_eq baseUrl base hrefs [], ?_⟩
    rw [discover_foldl_eq baseUrl base hrefs []]
    exact nodup_foldl_dedup _ [] List.nodup_nil

/-- Line 67 of `execute` (src/js/scheduler.js): the page list submitted
for audit, `[this.url, ...links].slice(0, 10)`. -/
def pagesToAudit (url : String) (links : List String) : List String :=
  (url :: links).take 10

/-- C6: for a run whose root fetch succeeds, the audited page list is the
root followed by the discovered links, truncated to at most 10 entries;
the root is always at position 0, every entry is the root or a discovered
link, and 15 discovered links yield exactly 10 pages. -/
theorem pagesToAudit_spec (url : String) (hrefs : List String) :
    (pagesToAudit url (discoverLinks hrefs url)).head? = some url
    ∧ (pagesToAudit url (discoverLinks hrefs url)).length ≤ 10
    ∧ (∀ p ∈ pagesToAudit url (discoverLinks hrefs url),
        p = url ∨ p ∈ discoverLinks hrefs url)
    ∧ ((discoverLinks hrefs url).length = 15 →
        (pagesToAudit url (discoverLinks hrefs url)).length = 10) := by
  refine ⟨?_, ?_, ?_, ?_⟩
  · rw [pagesToAudit, List.take_succ_cons, List.head?_cons]
  · simp [pagesToAudit]
  · intro p hp
    have hmem := List.take_subset 10 _ hp
    rcases List.mem_cons.mp hmem with h | h
    · exact Or.inl h
    · exact Or.inr h
  · intro hlen
    simp [pagesToAudit, List.length_take, hlen]

/-- Witness for C6: a root page with 15 distinct same-origin links yields
exactly 10 audited pages. -/
theorem pagesToAudit_spec_witness :
    (pagesToAudit "https://example.com/" (discoverLinks
      ["/p1", "/p2", "/p3", "/p4", "/p5", "/p6", "/p7", "/p8", "/p9", "/p10",
       "/p11", "/p12", "/p13", "/p14", "/p15"] "https://example.com/")).length = 10 :=
  (pagesToAudit_spec "https://example.com/"
    ["/p1", "/p2", "/p3", "/p4", "/p5", "/p6", "/p7", "/p8", "/p9", "/p10",
     "/p11", "/p12", "/p13", "/p14", "/p15"]).2.2.2 (by decide)

end Scheduler
